import Mathlib

/-!
Verification of the USB protocol drivers in `pmca/usb/driver/libusb.py`:
the SCSI Bulk-Only Transport (MSC) driver and the PTP/MTP driver, together
with the fixed-layout wire formats (CBW, CSW, PtpHeader) they use.

Bytes are modelled as `List Nat` (each element conceptually < 256); the
transport is modelled as a scripted trace of read results and write
outcomes consumed in order, with a log of everything written.
-/

abbrev Bytes := List Nat

/-- Modelled from the spec: the StructCodec utility (`pmca/util`, not under
`src/`) packs multi-byte integers little-endian.  `toLE w n` is the `w`-byte
little-endian encoding of `n` (mod 2^(8*w)). -/
def toLE : Nat → Nat → Bytes
  | 0, _ => []
  | w + 1, n => n % 256 :: toLE w (n / 256)

/-- Modelled from the spec: little-endian decoding, inverse of `toLE`. -/
def fromLE : Bytes → Nat
  | [] => 0
  | b :: rest => b + 256 * fromLE rest

/-- Python `bytes.ljust(n, b'\0')`: pad on the right with zero bytes up to
length `n` (no truncation). -/
def ljust (n : Nat) (b : Bytes) : Bytes :=
  b ++ List.replicate (n - b.length) 0

/-- Modelled from the spec: the StructCodec packs a fixed-length byte-string
field (`Struct.STR % n`) by truncating to `n` bytes and zero-padding on the
right, as Python `struct.pack` does for an `ns` field. -/
def padTrunc (n : Nat) (b : Bytes) : Bytes :=
  b.take n ++ List.replicate (n - b.length) 0

/-- The byte string `b'USBC'`. -/
def strUSBC : Bytes := [0x55, 0x53, 0x42, 0x43]

/-- The byte string `b'USBS'`. -/
def strUSBS : Bytes := [0x55, 0x53, 0x42, 0x53]

/-- Modelled from the spec: `dump8` (from `pmca/util`, not under `src/`)
encodes an 8-bit integer as a single byte. -/
def dump8 (n : Nat) : Bytes := [n % 256]

/-- Modelled from the spec: `dump32le` (from `pmca/util`, not under `src/`)
encodes a 32-bit integer little-endian. -/
def dump32le (n : Nat) : Bytes := toLE 4 n

/-- The `PtpHeader` struct of `libusb.py`: 12-byte little-endian header
(`size` INT32, `type` INT16, `code` INT16, `transaction` INT32). -/
structure PtpHeader where
  size : Nat
  type : Nat
  code : Nat
  transaction : Nat
deriving DecidableEq

/-- `PtpHeader.size` in Python (the struct's wire size): 12 bytes. -/
def ptpHeaderSize : Nat := 12

def PtpHeader.pack (h : PtpHeader) : Bytes :=
  toLE 4 h.size ++ toLE 2 h.type ++ toLE 2 h.code ++ toLE 4 h.transaction

/-- Modelled from the spec: StructCodec decode validates only length (fails
when the buffer is shorter than the fixed size) and unpacks the prefix. -/
def PtpHeader.unpack (b : Bytes) : Option PtpHeader :=
  match b with
  | b0 :: b1 :: b2 :: b3 :: b4 :: b5 :: b6 :: b7 :: b8 :: b9 :: b10 :: b11 :: _ =>
    some ⟨fromLE [b0, b1, b2, b3], fromLE [b4, b5], fromLE [b6, b7],
          fromLE [b8, b9, b10, b11]⟩
  | _ => none

/-- Field ranges under which a `PtpHeader` is representable on the wire. -/
def PtpHeader.Valid (h : PtpHeader) : Prop :=
  h.size < 2 ^ 32 ∧ h.type < 2 ^ 16 ∧ h.code < 2 ^ 16 ∧ h.transaction < 2 ^ 32

instance (h : PtpHeader) : Decidable h.Valid := by
  unfold PtpHeader.Valid; infer_instance

/-- The `MscCommandBlockWrapper` struct of `libusb.py` (31 bytes). -/
structure MscCommandBlockWrapper where
  signature : Bytes
  tag : Nat
  dataTransferLength : Nat
  flags : Nat
  lun : Nat
  commandLength : Nat
  command : Bytes
deriving DecidableEq

/-- `MscCommandBlockWrapper.size` in Python: 31 bytes. -/
def mscCbwSize : Nat := 31

def MscCommandBlockWrapper.pack (c : MscCommandBlockWrapper) : Bytes :=
  padTrunc 4 c.signature ++ toLE 4 c.tag ++ toLE 4 c.dataTransferLength ++
  [c.flags % 256] ++ [c.lun % 256] ++ [c.commandLength % 256] ++ padTrunc 16 c.command

/-- Modelled from the spec: StructCodec decode of the CBW layout. -/
def MscCommandBlockWrapper.unpack (b : Bytes) : Option MscCommandBlockWrapper :=
  match b with
  | b0 :: b1 :: b2 :: b3 :: b4 :: b5 :: b6 :: b7 :: b8 :: b9 :: b10 :: b11 ::
    b12 :: b13 :: b14 :: b15 :: b16 :: b17 :: b18 :: b19 :: b20 :: b21 :: b22 ::
    b23 :: b24 :: b25 :: b26 :: b27 :: b28 :: b29 :: b30 :: _ =>
    some ⟨[b0, b1, b2, b3], fromLE [b4, b5, b6, b7], fromLE [b8, b9, b10, b11],
          b12, b13, b14,
          [b15, b16, b17, b18, b19, b20, b21, b22, b23, b24, b25, b26, b27, b28, b29, b30]⟩
  | _ => none

/-- Field ranges under which a CBW is representable on the wire. -/
def MscCommandBlockWrapper.Valid (c : MscCommandBlockWrapper) : Prop :=
  c.signature.length = 4 ∧ c.tag < 2 ^ 32 ∧ c.dataTransferLength < 2 ^ 32 ∧
  c.flags < 256 ∧ c.lun < 256 ∧ c.commandLength < 256 ∧ c.command.length = 16

instance (c : MscCommandBlockWrapper) : Decidable c.Valid := by
  unfold MscCommandBlockWrapper.Valid; infer_instance

/-- The `MscCommandStatusWrapper` struct of `libusb.py` (13 bytes). -/
structure MscCommandStatusWrapper where
  signature : Bytes
  tag : Nat
  dataResidue : Nat
  status : Nat
deriving DecidableEq

/-- `MscCommandStatusWrapper.size` in Python: 13 bytes. -/
def mscCswSize : Nat := 13

def MscCommandStatusWrapper.pack (c : MscCommandStatusWrapper) : Bytes :=
  padTrunc 4 c.signature ++ toLE 4 c.tag ++ toLE 4 c.dataResidue ++ [c.status % 256]

/-- Modelled from the spec: StructCodec decode of the CSW layout. -/
def MscCommandStatusWrapper.unpack (b : Bytes) : Option MscCommandStatusWrapper :=
  match b with
  | b0 :: b1 :: b2 :: b3 :: b4 :: b5 :: b6 :: b7 :: b8 :: b9 :: b10 :: b11 :: b12 :: _ =>
    some ⟨[b0, b1, b2, b3], fromLE [b4, b5, b6, b7], fromLE [b8, b9, b10, b11], b12⟩
  | _ => none

/-- Field ranges under which a CSW is representable on the wire. -/
def MscCommandStatusWrapper.Valid (c : MscCommandStatusWrapper) : Prop :=
  c.signature.length = 4 ∧ c.tag < 2 ^ 32 ∧ c.dataResidue < 2 ^ 32 ∧ c.status < 256

instance (c : MscCommandStatusWrapper) : Decidable c.Valid := by
  unfold MscCommandStatusWrapper.Valid; infer_instance

theorem toLE_length (w n : Nat) : (toLE w n).length = w := by
  induction w generalizing n with
  | zero => rfl
  | succ w ih => simp [toLE, ih]

theorem fromLE_toLE (w n : Nat) (h : n < 256 ^ w) : fromLE (toLE w n) = n := by
  induction w generalizing n with
  | zero =>
    simp [toLE, fromLE]
    omega
  | succ w ih =>
    have hdiv : n / 256 < 256 ^ w := by
      rw [Nat.div_lt_iff_lt_mul (by norm_num)]
      calc n < 256 ^ (w + 1) := h
        _ = 256 ^ w * 256 := by rw [Nat.pow_succ]
    simp [toLE, fromLE, ih (n / 256) hdiv]
    omega

theorem take_of_append (w : Nat) (a b : Bytes) (h : a.length = w) :
    (a ++ b).take w = a := by
  subst h; simp

theorem drop_of_append (w : Nat) (a b : Bytes) (h : a.length = w) :
    (a ++ b).drop w = b := by
  subst h; simp

/-! ## Transport model

The `UsbDriver` base class offers bulk `read`/`write` plus `clear_halt` on
an endpoint.  We model the device side as a script: a list of read results
(bytes returned, or a stall raising `usb.core.USBError`) consumed by
successive `read` calls, and a list of write outcomes consumed by successive
`write` calls (an empty script means writes succeed).  Everything the host
writes is logged; CBWs are additionally logged as structures so that their
fields can be observed. -/

inductive ReadResult where
  | bytes (data : Bytes)
  | stall
deriving DecidableEq

inductive WriteResult where
  | ok
  | stall
deriving DecidableEq

structure UsbState where
  reads : List ReadResult
  writes : List WriteResult
  writeLog : List Bytes
  haltClears : List Nat
  cbwLog : List MscCommandBlockWrapper
deriving DecidableEq

/-- Errors raised by the drivers.  Each constructor corresponds to one
`raise` site in `libusb.py` (the Python code raises `Exception` with the
message given in the comment), or to a transport-level fault. -/
inductive DriverError where
  | formatError              -- undersized buffer in StructCodec decode
  | usbError                 -- an uncaught usb.core.USBError from the transport
  | traceExhausted           -- model artifact: the scripted trace ran out
  | typeError                -- model artifact: parseMscSense applied to None
  | wrongStatusSignature     -- 'Wrong status signature'
  | massStorageError         -- 'Mass storage error'
  | massStorageWriteError    -- 'Mass storage write error'
  | massStorageReadError     -- 'Mass storage read error'
  | wrongResponseType (t : Nat)  -- 'Wrong response type: 0x%x'
deriving DecidableEq

/-- `UsbDriver.read(length)`: pops the next scripted read result.  The
`length` argument bounds what the device may return; the script records what
the device actually returned for that call. -/
def transportRead (_length : Nat) (s : UsbState) : Except DriverError ReadResult × UsbState :=
  match s.reads with
  | [] => (.error .traceExhausted, s)
  | r :: rest => (.ok r, { s with reads := rest })

/-- `UsbDriver.write(data)`: logs the attempt and pops the next scripted
write outcome (defaulting to success when the script is empty). -/
def transportWrite (data : Bytes) (s : UsbState) : WriteResult × UsbState :=
  match s.writes with
  | [] => (.ok, { s with writeLog := s.writeLog ++ [data] })
  | w :: rest => (w, { s with writes := rest, writeLog := s.writeLog ++ [data] })

/-- `dev.clear_halt(ep)`: logs which endpoint direction had its halt cleared. -/
def clearHalt (direction : Nat) (s : UsbState) : UsbState :=
  { s with haltClears := s.haltClears ++ [direction] }

def USB_ENDPOINT_OUT : Nat := 0
def USB_ENDPOINT_IN : Nat := 1

/-! ## MSC driver -/

def MSC_OC_REQUEST_SENSE : Nat := 0x03
def DIRECTION_WRITE : Nat := 0
def DIRECTION_READ : Nat := 0x80

/-- Modelled from the spec: `MscSense` / `parseMscSense` / `MSC_SENSE_OK`
live in `pmca/usb/__init__.py`, which is not under `src/`.  SenseData is the
parsed result of an 18-byte REQUEST SENSE response; the standard fields are
the sense key (byte 2, low nibble) and the additional sense code and
qualifier (bytes 12 and 13). -/
structure MscSense where
  key : Nat
  asc : Nat
  ascq : Nat
deriving DecidableEq

/-- Modelled from the spec: the `Ok` outcome (all sense fields zero). -/
def MSC_SENSE_OK : MscSense := ⟨0, 0, 0⟩

/-- Modelled from the spec: parse an 18-byte REQUEST SENSE response. -/
def parseMscSense (b : Bytes) : MscSense :=
  ⟨b.getD 2 0 % 16, b.getD 12 0, b.getD 13 0⟩

/-- `MscDriver._writeCommand(direction, command, dataSize, tag=0, lun=0)`:
packs and writes a CBW.  The CBW structure is also recorded in `cbwLog` so
that its fields can be observed. -/
def MscDriver.writeCommand (direction : Nat) (command : Bytes) (dataSize tag lun : Nat)
    (s : UsbState) : Except DriverError Unit × UsbState :=
  let cbw : MscCommandBlockWrapper :=
    ⟨strUSBC, tag, dataSize, direction, lun, command.length, ljust 16 command⟩
  let s := { s with cbwLog := s.cbwLog ++ [cbw] }
  match transportWrite (MscCommandBlockWrapper.pack cbw) s with
  | (.ok, s) => (.ok (), s)
  | (.stall, s) => (.error .usbError, s)

/-- `MscDriver._readResponse` specialized to `failOnError=True`.  With
`failOnError=True` the nonzero-status branch raises instead of recursing
into `requestSense`, so this specialization breaks the (depth-one) recursion
of the Python code. -/
def MscDriver.readResponseStrict (s : UsbState) : Except DriverError MscSense × UsbState :=
  match transportRead mscCswSize s with
  | (.error e, s) => (.error e, s)
  | (.ok .stall, s) => (.error .usbError, s)
  | (.ok (.bytes b), s) =>
    match MscCommandStatusWrapper.unpack b with
    | none => (.error .formatError, s)
    | some response =>
      if response.signature ≠ strUSBS then (.error .wrongStatusSignature, s)
      else if response.status ≠ 0 then (.error .massStorageError, s)
      else (.ok MSC_SENSE_OK, s)

/-- `MscDriver.sendReadCommand` specialized to `failOnError=True` (the form
used by `requestSense`). -/
def MscDriver.sendReadCommandStrict (command : Bytes) (size : Nat) (s : UsbState) :
    Except DriverError (MscSense × Option Bytes) × UsbState :=
  match MscDriver.writeCommand DIRECTION_READ command size 0 0 s with
  | (.error e, s) => (.error e, s)
  | (.ok _, s) =>
    match transportRead size s with
    | (.error e, s) => (.error e, s)
    | (.ok r, s) =>
      let (stalled, data, s) :=
        match r with
        | .bytes b => (false, some b, s)
        | .stall => (true, (none : Option Bytes), clearHalt USB_ENDPOINT_IN s)
      match MscDriver.readResponseStrict s with
      | (.error e, s) => (.error e, s)
      | (.ok sense, s) =>
        if stalled ∧ sense = MSC_SENSE_OK then (.error .massStorageReadError, s)
        else (.ok (sense, data), s)

/-- The fixed 6-byte REQUEST SENSE command:
`dump8(0x03) + 3*b'\0' + dump8(18) + b'\0'`. -/
def requestSenseCommand : Bytes := dump8 MSC_OC_REQUEST_SENSE ++ [0, 0, 0] ++ dump8 18 ++ [0]

/-- `MscDriver.requestSense`: issues REQUEST SENSE via `sendReadCommand`
with `failOnError=True` and parses the returned data.  (When the data-phase
read stalled the Python code would call `parseMscSense(None)` and die with a
TypeError; that path is unreachable under `failOnError=True`.) -/
def MscDriver.requestSense (s : UsbState) : Except DriverError MscSense × UsbState :=
  match MscDriver.sendReadCommandStrict requestSenseCommand 18 s with
  | (.error e, s) => (.error e, s)
  | (.ok (_, some d), s) => (.ok (parseMscSense d), s)
  | (.ok (_, none), s) => (.error .typeError, s)

/-- `MscDriver._readResponse(failOnError)`: reads and validates a CSW; on a
nonzero status either fails (`failOnError`) or retrieves sense data. -/
def MscDriver.readResponse (failOnError : Bool) (s : UsbState) :
    Except DriverError MscSense × UsbState :=
  match transportRead mscCswSize s with
  | (.error e, s) => (.error e, s)
  | (.ok .stall, s) => (.error .usbError, s)
  | (.ok (.bytes b), s) =>
    match MscCommandStatusWrapper.unpack b with
    | none => (.error .formatError, s)
    | some response =>
      if response.signature ≠ strUSBS then (.error .wrongStatusSignature, s)
      else if response.status ≠ 0 then
        if failOnError then (.error .massStorageError, s)
        else MscDriver.requestSense s
      else (.ok MSC_SENSE_OK, s)

/-- `MscDriver.sendCommand(command, failOnError)`: command phase with no
data phase, then status. -/
def MscDriver.sendCommand (command : Bytes) (failOnError : Bool) (s : UsbState) :
    Except DriverError MscSense × UsbState :=
  match MscDriver.writeCommand DIRECTION_WRITE command 0 0 0 s with
  | (.error e, s) => (.error e, s)
  | (.ok _, s) => MscDriver.readResponse failOnError s

/-- `MscDriver.sendWriteCommand(command, data, failOnError)`: command phase,
data-out phase (stall caught, halt cleared), then status; a stall followed
by an `Ok` status is reported as 'Mass storage write error'. -/
def MscDriver.sendWriteCommand (command data : Bytes) (failOnError : Bool) (s : UsbState) :
    Except DriverError MscSense × UsbState :=
  match MscDriver.writeCommand DIRECTION_WRITE command data.length 0 0 s with
  | (.error e, s) => (.error e, s)
  | (.ok _, s) =>
    let (stalled, s) :=
      match transportWrite data s with
      | (.ok, s) => (false, s)
      | (.stall, s) => (true, clearHalt USB_ENDPOINT_OUT s)
    match MscDriver.readResponse failOnError s with
    | (.error e, s) => (.error e, s)
    | (.ok sense, s) =>
      if stalled ∧ sense = MSC_SENSE_OK then (.error .massStorageWriteError, s)
      else (.ok sense, s)

/-- `MscDriver.sendReadCommand(command, size, failOnError)`: command phase,
data-in phase (stall caught, halt cleared, data stays `None`), then status;
a stall followed by an `Ok` status is reported as 'Mass storage read error'. -/
def MscDriver.sendReadCommand (command : Bytes) (size : Nat) (failOnError : Bool)
    (s : UsbState) : Except DriverError (MscSense × Option Bytes) × UsbState :=
  match MscDriver.writeCommand DIRECTION_READ command size 0 0 s with
  | (.error e, s) => (.error e, s)
  | (.ok _, s) =>
    match transportRead size s with
    | (.error e, s) => (.error e, s)
    | (.ok r, s) =>
      let (stalled, data, s) :=
        match r with
        | .bytes b => (false, some b, s)
        | .stall => (true, (none : Option Bytes), clearHalt USB_ENDPOINT_IN s)
      match MscDriver.readResponse failOnError s with
      | (.error e, s) => (.error e, s)
      | (.ok sense, s) =>
        if stalled ∧ sense = MSC_SENSE_OK then (.error .massStorageReadError, s)
        else (.ok (sense, data), s)

/-- Sanity check: the layered strict definitions agree with the general ones
at `failOnError = true`, so the single Python `sendReadCommand` is faithfully
represented. -/
theorem sendReadCommand_true_eq_strict (command : Bytes) (size : Nat) (s : UsbState) :
    MscDriver.sendReadCommand command size true s =
    MscDriver.sendReadCommandStrict command size s := rfl

/-! ## MTP driver -/

def MAX_PKG_LEN : Nat := 512
def TYPE_COMMAND : Nat := 1
def TYPE_DATA : Nat := 2
def TYPE_RESPONSE : Nat := 3

/-- The `MtpDriver` instance state: the transport plus the lazily created
`self.transaction` attribute (`none` while the attribute does not exist). -/
structure MtpState where
  usb : UsbState
  transaction : Option Nat
deriving DecidableEq

/-- `MtpDriver._writePtp(type, code, transaction, data)`: writes a PTP
header (size = header size + payload length) followed by the payload. -/
def MtpDriver.writePtp (ptype code transaction : Nat) (data : Bytes) (s : UsbState) :
    Except DriverError Unit × UsbState :=
  match transportWrite
      (PtpHeader.pack ⟨ptpHeaderSize + data.length, ptype, code, transaction⟩ ++ data) s with
  | (.ok, s) => (.ok (), s)
  | (.stall, s) => (.error .usbError, s)

/-- The `while data == b'': data = self.read(MAX_PKG_LEN)` loop of
`MtpDriver._readPtp`, as structural recursion over the scripted reads:
zero-length reads are retried without error and without a retry limit. -/
def MtpDriver.readPtpLoop : List ReadResult → Except DriverError Bytes × List ReadResult
  | [] => (.error .traceExhausted, [])
  | .stall :: rest => (.error .usbError, rest)
  | .bytes b :: rest =>
    if b = [] then MtpDriver.readPtpLoop rest else (.ok b, rest)

/-- `MtpDriver._readPtp`: read until non-empty, parse the header, fetch the
remainder when the declared size exceeds `MAX_PKG_LEN`, and return
`(type, code, transaction, data[12 : 12 + size])`. -/
def MtpDriver.readPtp (s : UsbState) :
    Except DriverError (Nat × Nat × Nat × Bytes) × UsbState :=
  match MtpDriver.readPtpLoop s.reads with
  | (.error e, rest) => (.error e, { s with reads := rest })
  | (.ok data, rest) =>
    let s := { s with reads := rest }
    match PtpHeader.unpack data with
    | none => (.error .formatError, s)
    | some header =>
      if header.size > MAX_PKG_LEN then
        match transportRead (header.size - MAX_PKG_LEN) s with
        | (.error e, s) => (.error e, s)
        | (.ok .stall, s) => (.error .usbError, s)
        | (.ok (.bytes more), s) =>
          (.ok (header.type, header.code, header.transaction,
                ((data ++ more).drop ptpHeaderSize).take header.size), s)
      else
        (.ok (header.type, header.code, header.transaction,
              (data.drop ptpHeaderSize).take header.size), s)

/-- `MtpDriver._readData`: reads a packet and fails unless its type is
`TYPE_DATA`, returning the payload. -/
def MtpDriver.readData (s : UsbState) : Except DriverError Bytes × UsbState :=
  match MtpDriver.readPtp s with
  | (.error e, s) => (.error e, s)
  | (.ok (ptype, _code, _transaction, data), s) =>
    if ptype ≠ TYPE_DATA then (.error (.wrongResponseType ptype), s)
    else (.ok data, s)

/-- `MtpDriver._readResponse`: reads a packet and fails unless its type is
`TYPE_RESPONSE`, returning the response code. -/
def MtpDriver.readResponse (s : UsbState) : Except DriverError Nat × UsbState :=
  match MtpDriver.readPtp s with
  | (.error e, s) => (.error e, s)
  | (.ok (ptype, code, _transaction, _data), s) =>
    if ptype ≠ TYPE_RESPONSE then (.error (.wrongResponseType ptype), s)
    else (.ok code, s)

/-- The transaction id the next command will use: `self.transaction += 1`,
with the `AttributeError` on first use caught and handled as
`self.transaction = 0`. -/
def nextT : Option Nat → Nat
  | none => 0
  | some n => n + 1

/-- `MtpDriver._writeInitialCommand(code, args)`: bumps (or lazily creates)
the transaction counter, then writes a Command packet whose payload is the
arguments dumped as 32-bit little-endian values.  The counter is updated
even when the write itself fails, as in the Python code. -/
def MtpDriver.writeInitialCommand (code : Nat) (args : List Nat) (s : MtpState) :
    Except DriverError Unit × MtpState :=
  let t := nextT s.transaction
  match MtpDriver.writePtp TYPE_COMMAND code t ((args.map dump32le).flatten) s.usb with
  | (.ok _, usb) => (.ok (), ⟨usb, some t⟩)
  | (.error e, usb) => (.error e, ⟨usb, some t⟩)

/-- `MtpDriver.sendCommand(code, args)`: command packet, then response. -/
def MtpDriver.sendCommand (code : Nat) (args : List Nat) (s : MtpState) :
    Except DriverError Nat × MtpState :=
  match MtpDriver.writeInitialCommand code args s with
  | (.error e, s) => (.error e, s)
  | (.ok _, s) =>
    match MtpDriver.readResponse s.usb with
    | (.error e, usb) => (.error e, { s with usb := usb })
    | (.ok code2, usb) => (.ok code2, { s with usb := usb })

/-- `MtpDriver.sendWriteCommand(code, args, data)`: command packet, then a
Data packet with the same transaction id and code, then the response. -/
def MtpDriver.sendWriteCommand (code : Nat) (args : List Nat) (data : Bytes)
    (s : MtpState) : Except DriverError Nat × MtpState :=
  match MtpDriver.writeInitialCommand code args s with
  | (.error e, s) => (.error e, s)
  | (.ok _, s) =>
    match MtpDriver.writePtp TYPE_DATA code (s.transaction.getD 0) data s.usb with
    | (.error e, usb) => (.error e, { s with usb := usb })
    | (.ok _, usb) =>
      match MtpDriver.readResponse usb with
      | (.error e, usb) => (.error e, { s with usb := usb })
      | (.ok code2, usb) => (.ok code2, { s with usb := usb })

/-- `MtpDriver.sendReadCommand(code, args)`: command packet, then a Data
packet is read, then the response; returns `(responseCode, data)`. -/
def MtpDriver.sendReadCommand (code : Nat) (args : List Nat) (s : MtpState) :
    Except DriverError (Nat × Bytes) × MtpState :=
  match MtpDriver.writeInitialCommand code args s with
  | (.error e, s) => (.error e, s)
  | (.ok _, s) =>
    match MtpDriver.readData s.usb with
    | (.error e, usb) => (.error e, { s with usb := usb })
    | (.ok data, usb) =>
      match MtpDriver.readResponse usb with
      | (.error e, usb) => (.error e, { s with usb := usb })
      | (.ok code2, usb) => (.ok (code2, data), { s with usb := usb })

/-! ## Command sequences (for the transaction-counter invariant) -/

/-- One public MTP driver call. -/
inductive PtpCall where
  | cmd (code : Nat) (args : List Nat)
  | wr (code : Nat) (args : List Nat) (data : Bytes)
  | rd (code : Nat) (args : List Nat)
deriving DecidableEq

/-- Execute one call, discarding its value but keeping the state. -/
def runCall : PtpCall → MtpState → Except DriverError Unit × MtpState
  | .cmd code args, s =>
    match MtpDriver.sendCommand code args s with
    | (.ok _, s) => (.ok (), s)
    | (.error e, s) => (.error e, s)
  | .wr code args data, s =>
    match MtpDriver.sendWriteCommand code args data s with
    | (.ok _, s) => (.ok (), s)
    | (.error e, s) => (.error e, s)
  | .rd code args, s =>
    match MtpDriver.sendReadCommand code args s with
    | (.ok _, s) => (.ok (), s)
    | (.error e, s) => (.error e, s)

/-- Execute a list of calls in order, stopping at the first failure. -/
def runCalls : List PtpCall → MtpState → Except DriverError Unit × MtpState
  | [], s => (.ok (), s)
  | c :: rest, s =>
    match runCall c s with
    | (.ok _, s) => runCalls rest s
    | (.error e, s) => (.error e, s)

/-- The exact bytes of the Command packet `_writeInitialCommand` emits. -/
def commandPacket (code : Nat) (args : List Nat) (tid : Nat) : Bytes :=
  PtpHeader.pack ⟨ptpHeaderSize + ((args.map dump32le).flatten).length, TYPE_COMMAND, code, tid⟩ ++
  (args.map dump32le).flatten

/-- The exact bytes of the Data packet `sendWriteCommand` emits. -/
def dataPacket (code : Nat) (data : Bytes) (tid : Nat) : Bytes :=
  PtpHeader.pack ⟨ptpHeaderSize + data.length, TYPE_DATA, code, tid⟩ ++ data

/-- The packets a call writes when it is assigned transaction id `tid`. -/
def callPackets : PtpCall → Nat → List Bytes
  | .cmd code args, tid => [commandPacket code args tid]
  | .wr code args data, tid => [commandPacket code args tid, dataPacket code data tid]
  | .rd code args, tid => [commandPacket code args tid]

/-- The packets a call list writes when its first call is assigned
transaction id `t0`: the k-th call (0-based) gets id `t0 + k`. -/
def expectedLogFrom (t0 : Nat) : List PtpCall → List Bytes
  | [] => []
  | c :: rest => callPackets c t0 ++ expectedLogFrom (t0 + 1) rest

/-! ## Decidable equality on results (used by concrete witnesses) -/

instance {ε α : Type} [DecidableEq ε] [DecidableEq α] : DecidableEq (Except ε α) := fun a b =>
  match a, b with
  | .ok a, .ok b => if h : a = b then .isTrue (by rw [h]) else .isFalse (by simp [h])
  | .error a, .error b => if h : a = b then .isTrue (by rw [h]) else .isFalse (by simp [h])
  | .ok _, .error _ => .isFalse (by simp)
  | .error _, .ok _ => .isFalse (by simp)

/-! ## Wire-format roundtrips -/

theorem ptpHeader_unpack_pack (h : PtpHeader) (extra : Bytes) (hv : h.Valid) :
    PtpHeader.unpack (h.pack ++ extra) = some h := by
  obtain ⟨s, t, c, tr⟩ := h
  simp only [PtpHeader.Valid] at hv
  obtain ⟨hs, ht, hc, htr⟩ := hv
  simp only [PtpHeader.pack, toLE, List.cons_append, List.nil_append, PtpHeader.unpack,
    fromLE, Option.some.injEq, PtpHeader.mk.injEq]
  refine ⟨?_, ?_, ?_, ?_⟩ <;> omega

theorem csw_unpack_pack (c : MscCommandStatusWrapper)
    (extra : Bytes) (hv : c.Valid) :
    MscCommandStatusWrapper.unpack (c.pack ++ extra) = some c := by
  obtain ⟨sig, tag, residue, status⟩ := c
  simp only [MscCommandStatusWrapper.Valid] at hv
  obtain ⟨hsig, htag, hres, hst⟩ := hv
  match sig, hsig with
  | [s0, s1, s2, s3], _ =>
    simp only [MscCommandStatusWrapper.pack, padTrunc, toLE, List.take, List.length,
      List.replicate, List.cons_append, List.nil_append, List.append_nil,
      MscCommandStatusWrapper.unpack, fromLE, Option.some.injEq,
      MscCommandStatusWrapper.mk.injEq]
    refine ⟨trivial, ?_, ?_, ?_⟩ <;> omega

theorem cbw_unpack_pack (c : MscCommandBlockWrapper)
    (extra : Bytes) (hv : c.Valid) :
    MscCommandBlockWrapper.unpack (c.pack ++ extra) = some c := by
  obtain ⟨sig, tag, dataLen, flags, lun, cmdLen, command⟩ := c
  simp only [MscCommandBlockWrapper.Valid] at hv
  obtain ⟨hsig, htag, hdata, hflags, hlun, hcmdLen, hcommand⟩ := hv
  match sig, hsig, command, hcommand with
  | [s0, s1, s2, s3], _, [c0, c1, c2, c3, c4, c5, c6, c7, c8, c9, c10, c11, c12, c13, c14, c15], _ =>
    simp only [MscCommandBlockWrapper.pack, padTrunc, toLE, List.take, List.length,
      List.replicate, List.cons_append, List.nil_append, List.append_nil,
      MscCommandBlockWrapper.unpack, fromLE, Option.some.injEq,
      MscCommandBlockWrapper.mk.injEq]
    refine ⟨trivial, ?_, ?_, ?_, ?_, ?_, trivial⟩ <;> omega

/-- C8: for every valid field assignment of the CBW, CSW, and PtpHeader
structures, decoding the encoded byte layout yields back the original field
values: `decode(encode(x)) = some x` for each of the three wire formats. -/
theorem wire_format_roundtrip :
    (∀ h : PtpHeader, h.Valid → PtpHeader.unpack h.pack = some h) ∧
    (∀ c : MscCommandBlockWrapper, c.Valid →
      MscCommandBlockWrapper.unpack c.pack = some c) ∧
    (∀ w : MscCommandStatusWrapper, w.Valid →
      MscCommandStatusWrapper.unpack w.pack = some w) := by
  refine ⟨fun h hv => ?_, fun c hv => ?_, fun w hv => ?_⟩
  · have := ptpHeader_unpack_pack h [] hv
    simpa using this
  · have := cbw_unpack_pack c [] hv
    simpa using this
  · have := csw_unpack_pack w [] hv
    simpa using this

/-- C8 witness: the roundtrip applied to concrete wire structures. -/
theorem wire_format_roundtrip_witness :
    (PtpHeader.Valid ⟨600, 2, 0x9999, 7⟩ ∧
      PtpHeader.unpack (PtpHeader.pack ⟨600, 2, 0x9999, 7⟩) = some ⟨600, 2, 0x9999, 7⟩) ∧
    (MscCommandBlockWrapper.Valid ⟨strUSBC, 5, 18, 0x80, 1, 6, ljust 16 requestSenseCommand⟩ ∧
      MscCommandBlockWrapper.unpack
        (MscCommandBlockWrapper.pack ⟨strUSBC, 5, 18, 0x80, 1, 6, ljust 16 requestSenseCommand⟩) =
        some ⟨strUSBC, 5, 18, 0x80, 1, 6, ljust 16 requestSenseCommand⟩) ∧
    (MscCommandStatusWrapper.Valid ⟨strUSBS, 5, 0, 1⟩ ∧
      MscCommandStatusWrapper.unpack (MscCommandStatusWrapper.pack ⟨strUSBS, 5, 0, 1⟩) =
        some ⟨strUSBS, 5, 0, 1⟩) :=
  ⟨⟨by decide, wire_format_roundtrip.1 ⟨600, 2, 0x9999, 7⟩ (by decide)⟩,
   ⟨by decide, wire_format_roundtrip.2.1 ⟨strUSBC, 5, 18, 0x80, 1, 6, ljust 16 requestSenseCommand⟩ (by decide)⟩,
   ⟨by decide, wire_format_roundtrip.2.2 ⟨strUSBS, 5, 0, 1⟩ (by decide)⟩⟩

/-! ## C1: the first-command scenario -/

/-- The C1 transport script: the device answers the first command with a
Response packet (`type = 3, code = 0x2001, transaction = 0`). -/
def c1Usb : UsbState := ⟨[.bytes (PtpHeader.pack ⟨12, 3, 0x2001, 0⟩)], [], [], [], []⟩

/-- A freshly constructed driver instance: the `transaction` attribute does
not exist yet. -/
def c1State : MtpState := ⟨c1Usb, none⟩

/-- C1 counterexample: `sendCommand(code=0x1001, args=[0x00000005])` on a
fresh instance against the scripted Response does return `0x2001`, but the
transaction counter it leaves behind is 0, not 1: the lazily created counter
is initialized to 0 on the first command, so the claim's final value of 1 is
wrong. -/
theorem first_command_counter_counterexample :
    (MtpDriver.sendCommand 0x1001 [0x00000005] c1State).1 = .ok 0x2001 ∧
    ¬ (MtpDriver.sendCommand 0x1001 [0x00000005] c1State).2.transaction = some 1 := by
  constructor
  · decide
  · decide

/-- C1 (amended): `sendCommand(code=0x1001, args=[0x00000005])` against a
transport replying with a Response packet (`type=3, code=0x2001,
transaction=0`) returns `0x2001` and leaves the transaction counter equal
to 0: the counter does not exist before the first call, the call creates it
with value 0, and that value is the transaction id the command used. -/
theorem first_command_returns_and_counter :
    c1State.transaction = none ∧
    (MtpDriver.sendCommand 0x1001 [0x00000005] c1State).1 = .ok 0x2001 ∧
    (MtpDriver.sendCommand 0x1001 [0x00000005] c1State).2.transaction = some 0 ∧
    (MtpDriver.sendCommand 0x1001 [0x00000005] c1State).2.usb.writeLog =
      [commandPacket 0x1001 [0x00000005] 0] := by
  refine ⟨rfl, by decide, by decide, by decide⟩

/-! ## C5: packet type validation -/

/-- C5: when a PTP packet has been read, `_readData` fails with the
protocol error `wrongResponseType` exactly when the header type is not
`TYPE_DATA` (= 2) and otherwise returns the payload, and `_readResponse`
fails with `wrongResponseType` exactly when the type is not `TYPE_RESPONSE`
(= 3) and otherwise returns the response code. -/
theorem ptp_type_validation (s s' : UsbState) (t c tr : Nat) (d : Bytes)
    (h : MtpDriver.readPtp s = (.ok (t, c, tr, d), s')) :
    (MtpDriver.readData s =
      if t = TYPE_DATA then (.ok d, s') else (.error (.wrongResponseType t), s')) ∧
    (MtpDriver.readResponse s =
      if t = TYPE_RESPONSE then (.ok c, s') else (.error (.wrongResponseType t), s')) := by
  constructor
  · simp only [MtpDriver.readData, h]
    by_cases ht : t = TYPE_DATA <;> simp [ht]
  · simp only [MtpDriver.readResponse, h]
    by_cases ht : t = TYPE_RESPONSE <;> simp [ht]

/-- The C5 witness transport: a single Data packet (type 2). -/
def c5S : UsbState := ⟨[.bytes (PtpHeader.pack ⟨14, 2, 5, 9⟩ ++ [7, 8])], [], [], [], []⟩

/-- The state after the packet has been consumed. -/
def c5Sout : UsbState := ⟨[], [], [], [], []⟩

/-- C5 witness: the theorem applied to a concrete Data packet. -/
theorem ptp_type_validation_witness :
    MtpDriver.readPtp c5S = (.ok (2, 5, 9, [7, 8]), c5Sout) ∧
    ((MtpDriver.readData c5S =
        if 2 = TYPE_DATA then (.ok [7, 8], c5Sout)
        else (.error (.wrongResponseType 2), c5Sout)) ∧
     (MtpDriver.readResponse c5S =
        if 2 = TYPE_RESPONSE then (.ok 5, c5Sout)
        else (.error (.wrongResponseType 2), c5Sout))) :=
  ⟨by decide, ptp_type_validation c5S c5Sout 2 5 9 [7, 8] (by decide)⟩

/-! ## C6: the packet read loop -/

theorem PtpHeader.pack_length (h : PtpHeader) : h.pack.length = ptpHeaderSize := by
  simp [PtpHeader.pack, toLE_length, ptpHeaderSize]

theorem readPtpLoop_skips_empty (n : Nat) (d : Bytes) (rest : List ReadResult)
    (hd : d ≠ []) :
    MtpDriver.readPtpLoop (List.replicate n (.bytes []) ++ .bytes d :: rest) =
      (.ok d, rest) := by
  induction n with
  | zero => simp [MtpDriver.readPtpLoop, hd]
  | succ n ih => simpa [MtpDriver.readPtpLoop] using ih

/-- C6: the packet read loop retries zero-length reads without error and
without a retry limit (any number `n` of them); once a non-empty read
arrives, a packet whose declared size fits in `MAX_PKG_LEN` is parsed from
that single read, and a larger packet is completed by an additional read of
the remaining `size - MAX_PKG_LEN` bytes, the body being the whole
concatenation minus the 12-byte header. -/
theorem ptp_packet_read_loop (s : UsbState) (n : Nat) (h : PtpHeader)
    (rest : List ReadResult) (hv : h.Valid) :
    (∀ payload, s.reads = List.replicate n (.bytes []) ++ .bytes (h.pack ++ payload) :: rest →
      h.size = ptpHeaderSize + payload.length → h.size ≤ MAX_PKG_LEN →
      MtpDriver.readPtp s =
        (.ok (h.type, h.code, h.transaction, payload), { s with reads := rest })) ∧
    (∀ p1 p2, s.reads =
        List.replicate n (.bytes []) ++ .bytes (h.pack ++ p1) :: .bytes p2 :: rest →
      ptpHeaderSize + p1.length = MAX_PKG_LEN → h.size = MAX_PKG_LEN + p2.length →
      0 < p2.length →
      MtpDriver.readPtp s =
        (.ok (h.type, h.code, h.transaction, p1 ++ p2), { s with reads := rest })) := by
  have hne : ∀ payload : Bytes, h.pack ++ payload ≠ [] := by
    intro payload hemp
    have := congrArg List.length hemp
    simp [PtpHeader.pack_length, ptpHeaderSize] at this
  constructor
  · intro payload hreads hsize hle
    simp only [MtpDriver.readPtp, hreads,
      readPtpLoop_skips_empty n _ rest (hne payload),
      ptpHeader_unpack_pack h payload hv]
    rw [if_neg (by omega)]
    rw [drop_of_append ptpHeaderSize h.pack payload (PtpHeader.pack_length h)]
    rw [List.take_of_length_le (by omega)]
  · intro p1 p2 hreads hp1 hsize hp2
    simp only [MtpDriver.readPtp, hreads,
      readPtpLoop_skips_empty n _ (ReadResult.bytes p2 :: rest) (hne p1),
      ptpHeader_unpack_pack h p1 hv]
    rw [if_pos (by omega)]
    simp only [transportRead]
    rw [List.append_assoc]
    rw [drop_of_append ptpHeaderSize h.pack (p1 ++ p2) (PtpHeader.pack_length h)]
    rw [List.take_of_length_le (by simp only [List.length_append]; omega)]

/-- The C6 witness transport: two zero-length reads, then a 600-byte packet
split into a 512-byte first read and an 88-byte remainder. -/
def c6Hdr : PtpHeader := ⟨600, 2, 0x9999, 7⟩

def c6S : UsbState :=
  ⟨[.bytes [], .bytes [], .bytes (c6Hdr.pack ++ List.replicate 500 0xaa),
    .bytes (List.replicate 88 0xbb)], [], [], [], []⟩

set_option maxRecDepth 20000 in
/-- C6 witness: the oversized-packet branch of the theorem applied to the
concrete trace (two empty reads, then 512 + 88 bytes). -/
theorem ptp_packet_read_loop_witness :
    PtpHeader.Valid c6Hdr ∧
    MtpDriver.readPtp c6S =
      (.ok (c6Hdr.type, c6Hdr.code, c6Hdr.transaction,
            List.replicate 500 0xaa ++ List.replicate 88 0xbb),
       { c6S with reads := [] }) :=
  ⟨by decide,
   (ptp_packet_read_loop c6S 2 c6Hdr [] (by decide)).2
     (List.replicate 500 0xaa) (List.replicate 88 0xbb) (by decide) (by decide)
     (by decide) (by decide)⟩

/-! ## C7: CBW wire layout -/

theorem ljust_length (n : Nat) (b : Bytes) (h : b.length ≤ n) : (ljust n b).length = n := by
  simp [ljust]; omega

theorem padTrunc_ljust (n : Nat) (b : Bytes) (h : b.length ≤ n) :
    padTrunc n (ljust n b) = b ++ List.replicate (n - b.length) 0 := by
  unfold padTrunc
  rw [ljust_length n b h, List.take_of_length_le (le_of_eq (ljust_length n b h))]
  simp [ljust]

theorem transportWrite_writeLog (data : Bytes) (s : UsbState) :
    ((transportWrite data s).2).writeLog = s.writeLog ++ [data] := by
  rcases s with ⟨re, wr, wl, hc, cl⟩
  unfold transportWrite
  cases wr <;> rfl

theorem writeCommand_writeLog (direction : Nat) (command : Bytes)
    (dataSize tag lun : Nat) (s : UsbState) :
    (MscDriver.writeCommand direction command dataSize tag lun s).2.writeLog =
      s.writeLog ++ [MscCommandBlockWrapper.pack
        ⟨strUSBC, tag, dataSize, direction, lun, command.length, ljust 16 command⟩] := by
  rcases s with ⟨re, wr, wl, hc, cl⟩
  unfold MscDriver.writeCommand
  rcases wr with _ | ⟨w, rest⟩
  · rfl
  · cases w <;> rfl

/-- C7: for every SCSI command of length 1 to 16, the CBW written by the
MSC command phase is exactly 31 bytes: signature `USBC`, little-endian
32-bit tag and dataTransferLength, one byte each of flags, lun, and
commandLength (the command's actual length), then the 16-byte command field
holding the command bytes left-justified and zero-padded. -/
theorem msc_cbw_wire_layout (direction : Nat) (command : Bytes) (dataSize tag lun : Nat)
    (s : UsbState) (h1 : 1 ≤ command.length) (h2 : command.length ≤ 16)
    (hdir : direction < 256) (hlun : lun < 256) :
    ∃ cbwBytes,
      (MscDriver.writeCommand direction command dataSize tag lun s).2.writeLog =
        s.writeLog ++ [cbwBytes] ∧
      cbwBytes.length = 31 ∧
      cbwBytes = strUSBC ++ toLE 4 tag ++ toLE 4 dataSize ++ [direction] ++ [lun] ++
        [command.length] ++ (command ++ List.replicate (16 - command.length) 0) := by
  have hlay : MscCommandBlockWrapper.pack
      ⟨strUSBC, tag, dataSize, direction, lun, command.length, ljust 16 command⟩ =
      strUSBC ++ toLE 4 tag ++ toLE 4 dataSize ++ [direction] ++ [lun] ++
      [command.length] ++ (command ++ List.replicate (16 - command.length) 0) := by
    unfold MscCommandBlockWrapper.pack
    rw [padTrunc_ljust 16 command h2]
    simp [padTrunc, strUSBC, Nat.mod_eq_of_lt hdir, Nat.mod_eq_of_lt hlun,
      Nat.mod_eq_of_lt (show command.length < 256 by omega)]
  refine ⟨_, writeCommand_writeLog direction command dataSize tag lun s, ?_, hlay⟩
  rw [hlay]
  simp [List.length_append, toLE_length, strUSBC]
  omega

/-- C7 witness: the layout at a concrete 6-byte command. -/
theorem msc_cbw_wire_layout_witness :
    (1 ≤ ([0x28, 1, 2, 3, 4, 5] : Bytes).length ∧
     ([0x28, 1, 2, 3, 4, 5] : Bytes).length ≤ 16 ∧ (0x80 : Nat) < 256 ∧ (0 : Nat) < 256) ∧
    ∃ cbwBytes,
      (MscDriver.writeCommand 0x80 [0x28, 1, 2, 3, 4, 5] 512 0 0
        ⟨[], [], [], [], []⟩).2.writeLog = [] ++ [cbwBytes] ∧
      cbwBytes.length = 31 ∧
      cbwBytes = strUSBC ++ toLE 4 0 ++ toLE 4 512 ++ [0x80] ++ [0] ++
        [([0x28, 1, 2, 3, 4, 5] : Bytes).length] ++
        ([0x28, 1, 2, 3, 4, 5] ++ List.replicate (16 - ([0x28, 1, 2, 3, 4, 5] : Bytes).length) 0) :=
  ⟨⟨by decide, by decide, by decide, by decide⟩,
   msc_cbw_wire_layout 0x80 [0x28, 1, 2, 3, 4, 5] 512 0 0 ⟨[], [], [], [], []⟩
     (by decide) (by decide) (by decide) (by decide)⟩

/-! ## Characterizations of the MSC status phase -/

theorem readResponse_bad_signature (fo : Bool) (cswb : Bytes) (rest : List ReadResult)
    (csw : MscCommandStatusWrapper) (hu : MscCommandStatusWrapper.unpack cswb = some csw)
    (hsig : csw.signature ≠ strUSBS) (s : UsbState) (hr : s.reads = .bytes cswb :: rest) :
    MscDriver.readResponse fo s = (.error .wrongStatusSignature, { s with reads := rest }) := by
  rcases s with ⟨re, wr, wl, hc, cl⟩
  simp only at hr; subst hr
  unfold MscDriver.readResponse transportRead
  simp only [hu]
  rw [if_pos hsig]

theorem readResponse_ok_status (fo : Bool) (cswb : Bytes) (rest : List ReadResult)
    (csw : MscCommandStatusWrapper) (hu : MscCommandStatusWrapper.unpack cswb = some csw)
    (hsig : csw.signature = strUSBS) (hst : csw.status = 0)
    (s : UsbState) (hr : s.reads = .bytes cswb :: rest) :
    MscDriver.readResponse fo s = (.ok MSC_SENSE_OK, { s with reads := rest }) := by
  rcases s with ⟨re, wr, wl, hc, cl⟩
  simp only at hr; subst hr
  unfold MscDriver.readResponse transportRead
  simp only [hu]
  rw [if_neg (by simp [hsig]), if_neg (by simp [hst])]

theorem readResponse_nonzero_strict (cswb : Bytes) (rest : List ReadResult)
    (csw : MscCommandStatusWrapper) (hu : MscCommandStatusWrapper.unpack cswb = some csw)
    (hsig : csw.signature = strUSBS) (hst : csw.status ≠ 0)
    (s : UsbState) (hr : s.reads = .bytes cswb :: rest) :
    MscDriver.readResponse true s = (.error .massStorageError, { s with reads := rest }) := by
  rcases s with ⟨re, wr, wl, hc, cl⟩
  simp only at hr; subst hr
  unfold MscDriver.readResponse transportRead
  simp only [hu]
  rw [if_neg (by simp [hsig]), if_pos hst]
  rfl

theorem readResponse_nonzero_lenient (cswb : Bytes) (rest : List ReadResult)
    (csw : MscCommandStatusWrapper) (hu : MscCommandStatusWrapper.unpack cswb = some csw)
    (hsig : csw.signature = strUSBS) (hst : csw.status ≠ 0)
    (s : UsbState) (hr : s.reads = .bytes cswb :: rest) :
    MscDriver.readResponse false s = MscDriver.requestSense { s with reads := rest } := by
  rcases s with ⟨re, wr, wl, hc, cl⟩
  simp only at hr; subst hr
  unfold MscDriver.readResponse transportRead
  simp only [hu]
  rw [if_neg (by simp [hsig]), if_pos hst]
  rfl

/-! ## C4: stall recovery and stall inconsistency -/

/-- C4: for both MSC `sendWriteCommand` and `sendReadCommand`, a data-phase
stall clears the endpoint halt and still reads the status phase; when that
status phase reports success (`Ok`) despite the stall, the call fails with
the stall-inconsistency error ('Mass storage write/read error'), which is a
different error from the device-reported 'Mass storage error'. -/
theorem msc_stall_inconsistency (fo : Bool) (command data cswb : Bytes)
    (rest : List ReadResult) (csw : MscCommandStatusWrapper)
    (hu : MscCommandStatusWrapper.unpack cswb = some csw)
    (hsig : csw.signature = strUSBS) (hst : csw.status = 0) :
    (∀ s : UsbState, s.writes = [.ok, .stall] → s.reads = .bytes cswb :: rest →
      ∃ s', MscDriver.sendWriteCommand command data fo s =
          (.error .massStorageWriteError, s') ∧
        s'.haltClears = s.haltClears ++ [USB_ENDPOINT_OUT] ∧ s'.reads = rest) ∧
    (∀ (s : UsbState) (size : Nat), s.writes = [.ok] →
        s.reads = .stall :: .bytes cswb :: rest →
      ∃ s', MscDriver.sendReadCommand command size fo s =
          (.error .massStorageReadError, s') ∧
        s'.haltClears = s.haltClears ++ [USB_ENDPOINT_IN] ∧ s'.reads = rest) ∧
    (DriverError.massStorageWriteError ≠ DriverError.massStorageError ∧
     DriverError.massStorageReadError ≠ DriverError.massStorageError) := by
  refine ⟨?_, ?_, by simp, by simp⟩
  · intro s hw hr
    rcases s with ⟨re, wr, wl, hc, cl⟩
    simp only at hw hr
    subst hw; subst hr
    unfold MscDriver.sendWriteCommand MscDriver.writeCommand transportWrite clearHalt
    simp only
    rw [readResponse_ok_status fo cswb rest csw hu hsig hst _ rfl]
    simp only
    simp only [and_self, ite_true]
    exact ⟨_, rfl, rfl, rfl⟩
  · intro s size hw hr
    rcases s with ⟨re, wr, wl, hc, cl⟩
    simp only at hw hr
    subst hw; subst hr
    unfold MscDriver.sendReadCommand MscDriver.writeCommand transportWrite transportRead clearHalt
    simp only
    rw [readResponse_ok_status fo cswb rest csw hu hsig hst _ rfl]
    simp only
    simp only [and_self, ite_true]
    exact ⟨_, rfl, rfl, rfl⟩

/-- A packed CSW reporting success (status 0). -/
def c4CswOk : Bytes := MscCommandStatusWrapper.pack ⟨strUSBS, 0, 0, 0⟩

/-- The C4 witness transport: the CBW write succeeds, the data write
stalls, and the device then reports status 0. -/
def c4S : UsbState := ⟨[.bytes c4CswOk], [.ok, .stall], [], [], []⟩

/-- C4 witness: a stalled data write followed by a success CSW is reported
as the stall-inconsistency error at a concrete trace. -/
theorem msc_stall_inconsistency_witness :
    MscCommandStatusWrapper.unpack c4CswOk = some ⟨strUSBS, 0, 0, 0⟩ ∧
    c4S.writes = [.ok, .stall] ∧ c4S.reads = .bytes c4CswOk :: [] ∧
    (∃ s', MscDriver.sendWriteCommand [0x2a] [1, 2, 3] false c4S =
        (.error .massStorageWriteError, s') ∧
      s'.haltClears = c4S.haltClears ++ [USB_ENDPOINT_OUT] ∧ s'.reads = []) :=
  ⟨by decide, rfl, rfl,
   (msc_stall_inconsistency false [0x2a] [1, 2, 3] c4CswOk [] ⟨strUSBS, 0, 0, 0⟩
     (by decide) (by decide) (by decide)).1 c4S rfl rfl⟩

/-! ## C10: stalled reads return no data -/

/-- C10: in MSC `sendReadCommand`, when the data-phase read stalls, any
normal return carries `none` as the data component (never a truncated byte
string); a byte string is returned only when the bulk-in read completed
without a USB error, in which case it is exactly what the device returned. -/
theorem msc_read_stall_data_none (command : Bytes) (size : Nat) (fo : Bool)
    (s : UsbState) (rest : List ReadResult) (res : MscSense × Option Bytes)
    (s' : UsbState) :
    (s.reads = .stall :: rest →
      MscDriver.sendReadCommand command size fo s = (.ok res, s') → res.2 = none) ∧
    (∀ b, s.reads = .bytes b :: rest →
      MscDriver.sendReadCommand command size fo s = (.ok res, s') → res.2 = some b) := by
  rcases s with ⟨re, wr, wl, hc, cl⟩
  constructor
  · intro hreads hrun
    simp only at hreads
    subst hreads
    unfold MscDriver.sendReadCommand MscDriver.writeCommand transportWrite at hrun
    rcases wr with _ | ⟨w, wtl⟩
    · simp only [transportRead] at hrun
      split at hrun
      · simp at hrun
      · split at hrun
        · simp at hrun
        · simp only [Prod.mk.injEq, Except.ok.injEq] at hrun
          rw [← hrun.1]
    · cases w
      · simp only [transportRead] at hrun
        split at hrun
        · simp at hrun
        · split at hrun
          · simp at hrun
          · simp only [Prod.mk.injEq, Except.ok.injEq] at hrun
            rw [← hrun.1]
      · simp at hrun
  · intro b hreads hrun
    simp only at hreads
    subst hreads
    unfold MscDriver.sendReadCommand MscDriver.writeCommand transportWrite at hrun
    rcases wr with _ | ⟨w, wtl⟩
    · simp only [transportRead] at hrun
      split at hrun
      · simp at hrun
      · split at hrun
        · simp at hrun
        · simp only [Prod.mk.injEq, Except.ok.injEq] at hrun
          rw [← hrun.1]
    · cases w
      · simp only [transportRead] at hrun
        split at hrun
        · simp at hrun
        · split at hrun
          · simp at hrun
          · simp only [Prod.mk.injEq, Except.ok.injEq] at hrun
            rw [← hrun.1]
      · simp at hrun

/-- A concrete 18-byte sense buffer (sense key 6, asc 0x3a). -/
def c10Sense : Bytes := [0x70, 0, 6, 0, 0, 0, 0, 10, 0, 0, 0, 0, 0x3a, 0, 0, 0, 0, 0]

/-- The C10 witness transport: the data-phase read stalls, the device
reports status 1, and the subsequent REQUEST SENSE exchange succeeds. -/
def c10S : UsbState :=
  ⟨[.stall, .bytes (MscCommandStatusWrapper.pack ⟨strUSBS, 0, 0, 1⟩), .bytes c10Sense,
    .bytes (MscCommandStatusWrapper.pack ⟨strUSBS, 0, 0, 0⟩)], [], [], [], []⟩

/-- The result and final state of the C10 witness run. -/
def c10Res : MscSense × Option Bytes := (⟨6, 0x3a, 0⟩, none)

def c10Sout : UsbState := (MscDriver.sendReadCommand [0x28] 512 false c10S).2

/-- C10 witness: the stalled-read run returns sense data with no data
bytes. -/
theorem msc_read_stall_data_none_witness :
    c10S.reads = .stall :: c10S.reads.tail ∧
    MscDriver.sendReadCommand [0x28] 512 false c10S = (.ok c10Res, c10Sout) ∧
    c10Res.2 = none :=
  ⟨rfl, by decide,
   (msc_read_stall_data_none [0x28] 512 false c10S c10S.reads.tail c10Res c10Sout).1
     rfl (by decide)⟩

/-! ## C3: MSC status interpretation -/

theorem readResponseStrict_ok_status (cswb : Bytes) (rest : List ReadResult)
    (csw : MscCommandStatusWrapper) (hu : MscCommandStatusWrapper.unpack cswb = some csw)
    (hsig : csw.signature = strUSBS) (hst : csw.status = 0)
    (s : UsbState) (hr : s.reads = .bytes cswb :: rest) :
    MscDriver.readResponseStrict s = (.ok MSC_SENSE_OK, { s with reads := rest }) := by
  rcases s with ⟨re, wr, wl, hc, cl⟩
  simp only at hr; subst hr
  unfold MscDriver.readResponseStrict transportRead
  simp only [hu]
  rw [if_neg (by simp [hsig]), if_neg (by simp [hst])]

/-- The CBW the REQUEST SENSE retrieval emits. -/
def senseCbw : MscCommandBlockWrapper :=
  ⟨strUSBC, 0, 18, DIRECTION_READ, 0, requestSenseCommand.length, ljust 16 requestSenseCommand⟩

/-- C3: reading the MSC status phase: a CSW whose signature is not `USBS`
fails with the protocol error; status 0 yields the `Ok` outcome with no
further transport activity (no REQUEST SENSE); nonzero status with
`failOnError` fails immediately with the device error; nonzero status
without `failOnError` becomes exactly the `requestSense` call on the
post-CSW state, and that call performs one REQUEST SENSE round-trip using
`failOnError = true` (via the strict path) and returns the parsed sense
data, having emitted exactly one more CBW. -/
theorem msc_status_interpretation (fo : Bool) (s : UsbState) (cswb : Bytes)
    (rest : List ReadResult) (csw : MscCommandStatusWrapper)
    (hr : s.reads = .bytes cswb :: rest)
    (hu : MscCommandStatusWrapper.unpack cswb = some csw) :
    (csw.signature ≠ strUSBS →
      MscDriver.readResponse fo s =
        (.error .wrongStatusSignature, { s with reads := rest })) ∧
    (csw.signature = strUSBS → csw.status = 0 →
      MscDriver.readResponse fo s = (.ok MSC_SENSE_OK, { s with reads := rest })) ∧
    (csw.signature = strUSBS → csw.status ≠ 0 → fo = true →
      MscDriver.readResponse fo s = (.error .massStorageError, { s with reads := rest })) ∧
    (csw.signature = strUSBS → csw.status ≠ 0 → fo = false →
      MscDriver.readResponse fo s = MscDriver.requestSense { s with reads := rest }) ∧
    (∀ (t : UsbState) (d cb : Bytes) (rest2 : List ReadResult)
        (csw2 : MscCommandStatusWrapper),
      t.writes = [] → t.reads = .bytes d :: .bytes cb :: rest2 →
      MscCommandStatusWrapper.unpack cb = some csw2 → csw2.signature = strUSBS →
      csw2.status = 0 →
      ∃ t', MscDriver.requestSense t = (.ok (parseMscSense d), t') ∧
        t'.reads = rest2 ∧
        t'.writeLog = t.writeLog ++ [MscCommandBlockWrapper.pack senseCbw] ∧
        t'.cbwLog = t.cbwLog ++ [senseCbw]) := by
  refine ⟨?_, ?_, ?_, ?_, ?_⟩
  · intro hsig
    exact readResponse_bad_signature fo cswb rest csw hu hsig s hr
  · intro hsig hst
    exact readResponse_ok_status fo cswb rest csw hu hsig hst s hr
  · intro hsig hst hfo
    subst hfo
    exact readResponse_nonzero_strict cswb rest csw hu hsig hst s hr
  · intro hsig hst hfo
    subst hfo
    exact readResponse_nonzero_lenient cswb rest csw hu hsig hst s hr
  · intro t d cb rest2 csw2 hw hr2 hu2 hsig2 hst2
    rcases t with ⟨re, wr, wl, hc, cl⟩
    simp only at hw hr2
    subst hw; subst hr2
    unfold MscDriver.requestSense MscDriver.sendReadCommandStrict MscDriver.writeCommand
      transportWrite transportRead
    simp only
    rw [readResponseStrict_ok_status cb rest2 csw2 hu2 hsig2 hst2 _ rfl]
    simp only [false_and, ite_false]
    exact ⟨_, rfl, rfl, rfl, rfl⟩

/-- A packed CSW reporting failure (status 1). -/
def c3CswBad : Bytes := MscCommandStatusWrapper.pack ⟨strUSBS, 0, 0, 1⟩

/-- A concrete 18-byte sense buffer (sense key 5, asc 0x24). -/
def c3Sense : Bytes := [0x70, 0, 5, 0, 0, 0, 0, 10, 0, 0, 0, 0, 0x24, 0, 0, 0, 0, 0]

/-- The C3 witness transport: a failing CSW, then the sense exchange. -/
def c3S : UsbState :=
  ⟨[.bytes c3CswBad, .bytes c3Sense, .bytes (MscCommandStatusWrapper.pack ⟨strUSBS, 0, 0, 0⟩)],
   [], [], [], []⟩

/-- C3 witness: nonzero status with `failOnError = false` becomes the
REQUEST SENSE retrieval, which performs exactly one round-trip and returns
the parsed sense data. -/
theorem msc_status_interpretation_witness :
    c3S.reads = .bytes c3CswBad :: c3S.reads.tail ∧
    MscCommandStatusWrapper.unpack c3CswBad = some ⟨strUSBS, 0, 0, 1⟩ ∧
    MscDriver.readResponse false c3S =
      MscDriver.requestSense { c3S with reads := c3S.reads.tail } ∧
    (∃ t', MscDriver.requestSense { c3S with reads := c3S.reads.tail } =
        (.ok (parseMscSense c3Sense), t') ∧
      t'.reads = [] ∧
      t'.writeLog = [] ++ [MscCommandBlockWrapper.pack senseCbw] ∧
      t'.cbwLog = [] ++ [senseCbw]) :=
  ⟨rfl, by decide,
   (msc_status_interpretation false c3S c3CswBad c3S.reads.tail ⟨strUSBS, 0, 0, 1⟩
      rfl (by decide)).2.2.2.1 rfl (by decide) rfl,
   (msc_status_interpretation false c3S c3CswBad c3S.reads.tail ⟨strUSBS, 0, 0, 1⟩
      rfl (by decide)).2.2.2.2 { c3S with reads := c3S.reads.tail } c3Sense
      (MscCommandStatusWrapper.pack ⟨strUSBS, 0, 0, 0⟩) [] ⟨strUSBS, 0, 0, 0⟩
      rfl (by decide) (by decide) rfl rfl⟩

/-! ## C9: tag and lun are always zero -/

def CbwExtends (s s' : UsbState) : Prop :=
  ∃ l, s'.cbwLog = s.cbwLog ++ l ∧ ∀ c ∈ l, c.tag = 0 ∧ c.lun = 0

theorem CbwExtends.of_cbwLog_eq {s s' : UsbState} (h : s'.cbwLog = s.cbwLog) :
    CbwExtends s s' := ⟨[], by simp [h], by simp⟩

theorem CbwExtends.trans {a b c : UsbState} (h1 : CbwExtends a b) (h2 : CbwExtends b c) :
    CbwExtends a c := by
  obtain ⟨l1, e1, p1⟩ := h1
  obtain ⟨l2, e2, p2⟩ := h2
  refine ⟨l1 ++ l2, by rw [e2, e1, List.append_assoc], ?_⟩
  intro x hx
  rcases List.mem_append.1 hx with h | h
  · exact p1 x h
  · exact p2 x h

theorem transportRead_cbwLog (n : Nat) (s : UsbState) :
    ((transportRead n s).2).cbwLog = s.cbwLog := by
  rcases s with ⟨re, wr, wl, hc, cl⟩
  unfold transportRead
  cases re <;> rfl

theorem cbwExtends_writeCommand (direction : Nat) (command : Bytes) (dataSize : Nat)
    (s : UsbState) :
    CbwExtends s ((MscDriver.writeCommand direction command dataSize 0 0 s).2) := by
  rcases s with ⟨re, wr, wl, hc, cl⟩
  unfold MscDriver.writeCommand transportWrite
  rcases wr with _ | ⟨w, wtl⟩
  · exact ⟨[⟨strUSBC, 0, dataSize, direction, 0, command.length, ljust 16 command⟩], rfl, by simp⟩
  · cases w <;>
      exact ⟨[⟨strUSBC, 0, dataSize, direction, 0, command.length, ljust 16 command⟩], rfl, by simp⟩

theorem cbwExtends_readResponseStrict (s : UsbState) :
    CbwExtends s ((MscDriver.readResponseStrict s).2) := by
  rcases s with ⟨re, wr, wl, hc, cl⟩
  rcases re with _ | ⟨r, rest⟩
  · exact CbwExtends.of_cbwLog_eq rfl
  · cases r with
    | bytes b =>
      unfold MscDriver.readResponseStrict transportRead
      simp only
      split
      · exact CbwExtends.of_cbwLog_eq rfl
      · split
        · exact CbwExtends.of_cbwLog_eq rfl
        · split
          · exact CbwExtends.of_cbwLog_eq rfl
          · exact CbwExtends.of_cbwLog_eq rfl
    | stall => exact CbwExtends.of_cbwLog_eq rfl

theorem cbwExtends_sendReadCommandStrict (command : Bytes) (size : Nat) (s : UsbState) :
    CbwExtends s ((MscDriver.sendReadCommandStrict command size s).2) := by
  unfold MscDriver.sendReadCommandStrict
  split
  · rename_i e s1 heq
    have h1 := cbwExtends_writeCommand DIRECTION_READ command size s
    rw [heq] at h1
    exact h1
  · rename_i u s1 heq
    have h1 := cbwExtends_writeCommand DIRECTION_READ command size s
    rw [heq] at h1
    split
    · rename_i e s2 heq2
      have h2 := @CbwExtends.of_cbwLog_eq s1 (transportRead size s1).2 (transportRead_cbwLog size s1)
      rw [heq2] at h2
      exact h1.trans h2
    · rename_i r s2 heq2
      have h2 := @CbwExtends.of_cbwLog_eq s1 (transportRead size s1).2 (transportRead_cbwLog size s1)
      rw [heq2] at h2
      have h12 := h1.trans h2
      cases r with
      | bytes b =>
        simp only
        split
        · rename_i e s4 heq4
          have h3 := cbwExtends_readResponseStrict s2
          rw [heq4] at h3
          exact h12.trans h3
        · rename_i sense s4 heq4
          have h3 := cbwExtends_readResponseStrict s2
          rw [heq4] at h3
          split
          · exact h12.trans h3
          · exact h12.trans h3
      | stall =>
        simp only
        split
        · rename_i e s4 heq4
          have hch : CbwExtends s2 (clearHalt USB_ENDPOINT_IN s2) := CbwExtends.of_cbwLog_eq rfl
          have h3 := cbwExtends_readResponseStrict (clearHalt USB_ENDPOINT_IN s2)
          rw [heq4] at h3
          exact h12.trans (hch.trans h3)
        · rename_i sense s4 heq4
          have hch : CbwExtends s2 (clearHalt USB_ENDPOINT_IN s2) := CbwExtends.of_cbwLog_eq rfl
          have h3 := cbwExtends_readResponseStrict (clearHalt USB_ENDPOINT_IN s2)
          rw [heq4] at h3
          split
          · exact h12.trans (hch.trans h3)
          · exact h12.trans (hch.trans h3)

theorem transportWrite_cbwLog (data : Bytes) (s : UsbState) :
    ((transportWrite data s).2).cbwLog = s.cbwLog := by
  rcases s with ⟨re, wr, wl, hc, cl⟩
  unfold transportWrite
  cases wr <;> rfl

theorem cbwExtends_requestSense (s : UsbState) :
    CbwExtends s ((MscDriver.requestSense s).2) := by
  unfold MscDriver.requestSense
  split <;>
  · rename_i heq
    have h1 := cbwExtends_sendReadCommandStrict requestSenseCommand 18 s
    rw [heq] at h1
    exact h1

theorem cbwExtends_readResponse (fo : Bool) (s : UsbState) :
    CbwExtends s ((MscDriver.readResponse fo s).2) := by
  rcases s with ⟨re, wr, wl, hc, cl⟩
  rcases re with _ | ⟨r, rest⟩
  · exact CbwExtends.of_cbwLog_eq rfl
  · cases r with
    | bytes b =>
      unfold MscDriver.readResponse transportRead
      simp only
      split
      · exact CbwExtends.of_cbwLog_eq rfl
      · split
        · exact CbwExtends.of_cbwLog_eq rfl
        · split
          · split
            · exact CbwExtends.of_cbwLog_eq rfl
            · have hmid : CbwExtends ⟨.bytes b :: rest, wr, wl, hc, cl⟩
                  (⟨rest, wr, wl, hc, cl⟩ : UsbState) := CbwExtends.of_cbwLog_eq rfl
              exact hmid.trans (cbwExtends_requestSense _)
          · exact CbwExtends.of_cbwLog_eq rfl
    | stall => exact CbwExtends.of_cbwLog_eq rfl

theorem cbwExtends_sendCommand (command : Bytes) (fo : Bool) (s : UsbState) :
    CbwExtends s ((MscDriver.sendCommand command fo s).2) := by
  unfold MscDriver.sendCommand
  split
  · rename_i e s1 heq
    have h1 := cbwExtends_writeCommand DIRECTION_WRITE command 0 s
    rw [heq] at h1
    exact h1
  · rename_i u s1 heq
    have h1 := cbwExtends_writeCommand DIRECTION_WRITE command 0 s
    rw [heq] at h1
    exact h1.trans (cbwExtends_readResponse fo s1)

theorem cbwExtends_sendWriteCommand (command data : Bytes) (fo : Bool) (s : UsbState) :
    CbwExtends s ((MscDriver.sendWriteCommand command data fo s).2) := by
  unfold MscDriver.sendWriteCommand
  split
  · rename_i e s1 heq
    have h1 := cbwExtends_writeCommand DIRECTION_WRITE command data.length s
    rw [heq] at h1
    exact h1
  · rename_i u s1 heq
    have h1 := cbwExtends_writeCommand DIRECTION_WRITE command data.length s
    rw [heq] at h1
    rcases hw : transportWrite data s1 with ⟨w, s2⟩
    have h2 := @CbwExtends.of_cbwLog_eq s1 (transportWrite data s1).2
      (transportWrite_cbwLog data s1)
    rw [hw] at h2
    cases w with
    | ok =>
      simp only
      split
      · rename_i e s4 heq4
        have h3 := cbwExtends_readResponse fo s2
        rw [heq4] at h3
        exact (h1.trans h2).trans h3
      · rename_i sense s4 heq4
        have h3 := cbwExtends_readResponse fo s2
        rw [heq4] at h3
        split
        · exact (h1.trans h2).trans h3
        · exact (h1.trans h2).trans h3
    | stall =>
      simp only
      have hch : CbwExtends s2 (clearHalt USB_ENDPOINT_OUT s2) := CbwExtends.of_cbwLog_eq rfl
      split
      · rename_i e s4 heq4
        have h3 := cbwExtends_readResponse fo (clearHalt USB_ENDPOINT_OUT s2)
        rw [heq4] at h3
        exact ((h1.trans h2).trans hch).trans h3
      · rename_i sense s4 heq4
        have h3 := cbwExtends_readResponse fo (clearHalt USB_ENDPOINT_OUT s2)
        rw [heq4] at h3
        split
        · exact ((h1.trans h2).trans hch).trans h3
        · exact ((h1.trans h2).trans hch).trans h3

theorem cbwExtends_sendReadCommand (command : Bytes) (size : Nat) (fo : Bool) (s : UsbState) :
    CbwExtends s ((MscDriver.sendReadCommand command size fo s).2) := by
  unfold MscDriver.sendReadCommand
  split
  · rename_i e s1 heq
    have h1 := cbwExtends_writeCommand DIRECTION_READ command size s
    rw [heq] at h1
    exact h1
  · rename_i u s1 heq
    have h1 := cbwExtends_writeCommand DIRECTION_READ command size s
    rw [heq] at h1
    split
    · rename_i e s2 heq2
      have h2 := @CbwExtends.of_cbwLog_eq s1 (transportRead size s1).2
        (transportRead_cbwLog size s1)
      rw [heq2] at h2
      exact h1.trans h2
    · rename_i r s2 heq2
      have h2 := @CbwExtends.of_cbwLog_eq s1 (transportRead size s1).2
        (transportRead_cbwLog size s1)
      rw [heq2] at h2
      have h12 := h1.trans h2
      cases r with
      | bytes b =>
        simp only
        split
        · rename_i e s4 heq4
          have h3 := cbwExtends_readResponse fo s2
          rw [heq4] at h3
          exact h12.trans h3
        · rename_i sense s4 heq4
          have h3 := cbwExtends_readResponse fo s2
          rw [heq4] at h3
          split
          · exact h12.trans h3
          · exact h12.trans h3
      | stall =>
        simp only
        split
        · rename_i e s4 heq4
          have hch : CbwExtends s2 (clearHalt USB_ENDPOINT_IN s2) := CbwExtends.of_cbwLog_eq rfl
          have h3 := cbwExtends_readResponse fo (clearHalt USB_ENDPOINT_IN s2)
          rw [heq4] at h3
          exact h12.trans (hch.trans h3)
        · rename_i sense s4 heq4
          have hch : CbwExtends s2 (clearHalt USB_ENDPOINT_IN s2) := CbwExtends.of_cbwLog_eq rfl
          have h3 := cbwExtends_readResponse fo (clearHalt USB_ENDPOINT_IN s2)
          rw [heq4] at h3
          split
          · exact h12.trans (hch.trans h3)
          · exact h12.trans (hch.trans h3)

/-- C9: every CBW emitted by the public MSC operations carries tag 0 and
lun 0: `_writeCommand` is always invoked with its default `tag=0, lun=0`,
including by the internal REQUEST SENSE retrieval, so the two fields are
constant across all commands of an instance. -/
theorem msc_tag_lun_zero (command data : Bytes) (size : Nat) (fo : Bool) (s : UsbState) :
    (∀ c ∈ ((MscDriver.sendCommand command fo s).2).cbwLog.drop s.cbwLog.length,
      c.tag = 0 ∧ c.lun = 0) ∧
    (∀ c ∈ ((MscDriver.sendWriteCommand command data fo s).2).cbwLog.drop s.cbwLog.length,
      c.tag = 0 ∧ c.lun = 0) ∧
    (∀ c ∈ ((MscDriver.sendReadCommand command size fo s).2).cbwLog.drop s.cbwLog.length,
      c.tag = 0 ∧ c.lun = 0) := by
  refine ⟨?_, ?_, ?_⟩
  · obtain ⟨l, e, p⟩ := cbwExtends_sendCommand command fo s
    intro c hc
    rw [e, List.drop_left] at hc
    exact p c hc
  · obtain ⟨l, e, p⟩ := cbwExtends_sendWriteCommand command data fo s
    intro c hc
    rw [e, List.drop_left] at hc
    exact p c hc
  · obtain ⟨l, e, p⟩ := cbwExtends_sendReadCommand command size fo s
    intro c hc
    rw [e, List.drop_left] at hc
    exact p c hc

/-- The CBW `sendCommand` emits for the 1-byte command `[0x12]`. -/
def c9Cbw : MscCommandBlockWrapper := ⟨strUSBC, 0, 0, DIRECTION_WRITE, 0, 1, ljust 16 [0x12]⟩

/-- The C9 witness transport: a single success CSW. -/
def c9S : UsbState := ⟨[.bytes (MscCommandStatusWrapper.pack ⟨strUSBS, 0, 0, 0⟩)], [], [], [], []⟩

/-- C9 witness: the CBW logged by a concrete `sendCommand` run has tag 0
and lun 0. -/
theorem msc_tag_lun_zero_witness :
    c9Cbw ∈ ((MscDriver.sendCommand [0x12] false c9S).2).cbwLog.drop c9S.cbwLog.length ∧
    (c9Cbw.tag = 0 ∧ c9Cbw.lun = 0) :=
  ⟨by decide, (msc_tag_lun_zero [0x12] [] 0 false c9S).1 c9Cbw (by decide)⟩

/-! ## C2: the transaction-id sequence -/

theorem writePtp_ok (ptype code tid : Nat) (data : Bytes) (s : UsbState)
    (u : Unit) (s' : UsbState)
    (h : MtpDriver.writePtp ptype code tid data s = (.ok u, s')) :
    s'.writeLog = s.writeLog ++
      [PtpHeader.pack ⟨ptpHeaderSize + data.length, ptype, code, tid⟩ ++ data] := by
  rcases s with ⟨re, wr, wl, hc, cl⟩
  unfold MtpDriver.writePtp transportWrite at h
  rcases wr with _ | ⟨w, wtl⟩
  · simp only [Prod.mk.injEq] at h
    rw [← h.2]
  · cases w
    · simp only [Prod.mk.injEq] at h
      rw [← h.2]
    · simp at h

theorem readPtp_writeLog (s : UsbState) : ((MtpDriver.readPtp s).2).writeLog = s.writeLog := by
  rcases s with ⟨re, wr, wl, hc, cl⟩
  rcases hl : MtpDriver.readPtpLoop re with ⟨lr, rest⟩
  unfold MtpDriver.readPtp
  rw [hl]
  cases lr with
  | error e => rfl
  | ok data =>
    simp only
    cases hopt : PtpHeader.unpack data with
    | none => simp only [hopt]
    | some header =>
      simp only [hopt]
      split
      · unfold transportRead
        simp only
        rcases rest with _ | ⟨r2, rest2⟩
        · rfl
        · cases r2 <;> rfl
      · rfl

theorem mtpReadData_writeLog (s : UsbState) :
    ((MtpDriver.readData s).2).writeLog = s.writeLog := by
  unfold MtpDriver.readData
  split
  · rename_i heq
    have hp := readPtp_writeLog s
    rw [heq] at hp
    exact hp
  · rename_i heq
    have hp := readPtp_writeLog s
    rw [heq] at hp
    split <;> exact hp

theorem mtpReadResponse_writeLog (s : UsbState) :
    ((MtpDriver.readResponse s).2).writeLog = s.writeLog := by
  unfold MtpDriver.readResponse
  split
  · rename_i heq
    have hp := readPtp_writeLog s
    rw [heq] at hp
    exact hp
  · rename_i heq
    have hp := readPtp_writeLog s
    rw [heq] at hp
    split <;> exact hp

theorem writeInitialCommand_spec (code : Nat) (args : List Nat) (s : MtpState)
    (u : Unit) (s' : MtpState)
    (h : MtpDriver.writeInitialCommand code args s = (.ok u, s')) :
    s'.transaction = some (nextT s.transaction) ∧
    s'.usb.writeLog = s.usb.writeLog ++ [commandPacket code args (nextT s.transaction)] := by
  unfold MtpDriver.writeInitialCommand at h
  simp only [] at h
  split at h
  · rename_i u2 usb1 heq
    simp only [Prod.mk.injEq] at h
    rw [← h.2]
    refine ⟨rfl, ?_⟩
    exact writePtp_ok TYPE_COMMAND code (nextT s.transaction) _ s.usb u2 usb1 heq
  · simp at h

theorem sendCommand_spec (code : Nat) (args : List Nat) (s : MtpState) (r : Nat)
    (s' : MtpState) (h : MtpDriver.sendCommand code args s = (.ok r, s')) :
    s'.transaction = some (nextT s.transaction) ∧
    s'.usb.writeLog = s.usb.writeLog ++ callPackets (.cmd code args) (nextT s.transaction) := by
  unfold MtpDriver.sendCommand at h
  split at h
  · simp at h
  · rename_i u s1 heq
    obtain ⟨ht1, hw1⟩ := writeInitialCommand_spec code args s u s1 heq
    split at h
    · simp at h
    · rename_i code2 usb2 heq2
      simp only [Prod.mk.injEq] at h
      obtain ⟨hr, hs⟩ := h
      subst hs
      have hwl := mtpReadResponse_writeLog s1.usb
      rw [heq2] at hwl
      constructor
      · exact ht1
      · show usb2.writeLog = _
        rw [hwl, hw1]
        simp [callPackets]

theorem sendWriteCommand_spec (code : Nat) (args : List Nat) (data : Bytes) (s : MtpState)
    (r : Nat) (s' : MtpState)
    (h : MtpDriver.sendWriteCommand code args data s = (.ok r, s')) :
    s'.transaction = some (nextT s.transaction) ∧
    s'.usb.writeLog = s.usb.writeLog ++ callPackets (.wr code args data) (nextT s.transaction) := by
  unfold MtpDriver.sendWriteCommand at h
  split at h
  · simp at h
  · rename_i u s1 heq
    obtain ⟨ht1, hw1⟩ := writeInitialCommand_spec code args s u s1 heq
    split at h
    · simp at h
    · rename_i u2 usb2 heq2
      have hw2 := writePtp_ok TYPE_DATA code (s1.transaction.getD 0) data s1.usb u2 usb2 heq2
      split at h
      · simp at h
      · rename_i code3 usb3 heq3
        simp only [Prod.mk.injEq] at h
        obtain ⟨hr, hs⟩ := h
        subst hs
        have hwl := mtpReadResponse_writeLog usb2
        rw [heq3] at hwl
        constructor
        · exact ht1
        · show usb3.writeLog = _
          rw [hwl, hw2, hw1, ht1]
          simp [callPackets, commandPacket, dataPacket, Option.getD]

theorem sendReadCommand_spec (code : Nat) (args : List Nat) (s : MtpState)
    (r : Nat × Bytes) (s' : MtpState)
    (h : MtpDriver.sendReadCommand code args s = (.ok r, s')) :
    s'.transaction = some (nextT s.transaction) ∧
    s'.usb.writeLog = s.usb.writeLog ++ callPackets (.rd code args) (nextT s.transaction) := by
  unfold MtpDriver.sendReadCommand at h
  split at h
  · simp at h
  · rename_i u s1 heq
    obtain ⟨ht1, hw1⟩ := writeInitialCommand_spec code args s u s1 heq
    split at h
    · simp at h
    · rename_i d usb2 heq2
      have hw2 := mtpReadData_writeLog s1.usb
      rw [heq2] at hw2
      split at h
      · simp at h
      · rename_i code3 usb3 heq3
        simp only [Prod.mk.injEq] at h
        obtain ⟨hr, hs⟩ := h
        subst hs
        have hwl := mtpReadResponse_writeLog usb2
        rw [heq3] at hwl
        constructor
        · exact ht1
        · show usb3.writeLog = _
          rw [hwl, hw2, hw1]
          simp [callPackets]

theorem runCall_spec (c : PtpCall) (s : MtpState) (u : Unit) (s' : MtpState)
    (h : runCall c s = (.ok u, s')) :
    s'.transaction = some (nextT s.transaction) ∧
    s'.usb.writeLog = s.usb.writeLog ++ callPackets c (nextT s.transaction) := by
  cases c with
  | cmd code args =>
    simp only [runCall] at h
    split at h
    · rename_i r s1 heq
      simp only [Prod.mk.injEq] at h
      obtain ⟨_, hs⟩ := h
      subst hs
      exact sendCommand_spec code args s r s1 heq
    · simp at h
  | wr code args data =>
    simp only [runCall] at h
    split at h
    · rename_i r s1 heq
      simp only [Prod.mk.injEq] at h
      obtain ⟨_, hs⟩ := h
      subst hs
      exact sendWriteCommand_spec code args data s r s1 heq
    · simp at h
  | rd code args =>
    simp only [runCall] at h
    split at h
    · rename_i r s1 heq
      simp only [Prod.mk.injEq] at h
      obtain ⟨_, hs⟩ := h
      subst hs
      exact sendReadCommand_spec code args s r s1 heq
    · simp at h

/-- The transaction counter after `k` successful commands starting from
counter state `t`. -/
def transAfter (t : Option Nat) : Nat → Option Nat
  | 0 => t
  | k + 1 => some (nextT t + k)

theorem transAfter_succ (t : Option Nat) (k : Nat) :
    transAfter (some (nextT t)) k = transAfter t (k + 1) := by
  cases k with
  | zero => simp [transAfter]
  | succ k =>
    simp only [transAfter, nextT, Option.some.injEq]
    omega

theorem runCalls_spec (calls : List PtpCall) : ∀ (s s' : MtpState),
    runCalls calls s = (.ok (), s') →
    s'.usb.writeLog = s.usb.writeLog ++ expectedLogFrom (nextT s.transaction) calls ∧
    s'.transaction = transAfter s.transaction calls.length := by
  induction calls with
  | nil =>
    intro s s' h
    simp only [runCalls, Prod.mk.injEq] at h
    rw [← h.2]
    simp [expectedLogFrom, transAfter]
  | cons c rest ih =>
    intro s s' h
    simp only [runCalls] at h
    split at h
    · rename_i u s1 heq
      obtain ⟨ht1, hw1⟩ := runCall_spec c s u s1 heq
      obtain ⟨hw2, ht2⟩ := ih s1 s' h
      constructor
      · rw [hw2, hw1, ht1]
        simp [expectedLogFrom, nextT, List.append_assoc]
      · rw [ht2, ht1, List.length_cons, transAfter_succ]
    · simp at h

/-- C2: for every fresh driver instance and every successful mix of
`sendCommand`, `sendWriteCommand`, and `sendReadCommand` calls, the packets
written are exactly `expectedLogFrom 0 calls`: the k-th call's Command
packet — and, for a write command, its Data packet — carries transaction id
k-1 (0-based index k gets id k), and the counter ends at
`some (calls.length - 1)`, having changed once per command and never within
one command. -/
theorem ptp_transaction_sequence (calls : List PtpCall) (s0 s' : MtpState)
    (hfresh : s0.transaction = none) (hrun : runCalls calls s0 = (.ok (), s')) :
    s'.usb.writeLog = s0.usb.writeLog ++ expectedLogFrom 0 calls ∧
    s'.transaction = (if calls.length = 0 then none else some (calls.length - 1)) := by
  obtain ⟨hw, ht⟩ := runCalls_spec calls s0 s' hrun
  rw [hfresh] at hw ht
  constructor
  · simpa [nextT] using hw
  · rw [ht]
    cases calls with
    | nil => simp [transAfter]
    | cons c rest => simp [transAfter, nextT]

def c2RespPkt : ReadResult := .bytes (PtpHeader.pack ⟨12, 3, 0x2001, 99⟩)
def c2DataPkt : ReadResult := .bytes (PtpHeader.pack ⟨14, 2, 3, 99⟩ ++ [7, 8])
def c2S : MtpState := ⟨⟨[c2RespPkt, c2RespPkt, c2DataPkt, c2RespPkt], [], [], [], []⟩, none⟩
def c2Calls : List PtpCall := [.cmd 1 [], .wr 2 [] [0xaa], .rd 3 []]
def c2Sout : MtpState := (runCalls c2Calls c2S).2

/-- C2 witness: a concrete mixed run (plain, write, read) against scripted
Data/Response packets. -/
theorem ptp_transaction_sequence_witness :
    c2S.transaction = none ∧
    runCalls c2Calls c2S = (.ok (), c2Sout) ∧
    (c2Sout.usb.writeLog = c2S.usb.writeLog ++ expectedLogFrom 0 c2Calls ∧
     c2Sout.transaction = (if c2Calls.length = 0 then none else some (c2Calls.length - 1))) :=
  ⟨rfl, by decide, ptp_transaction_sequence c2Calls c2S c2Sout rfl (by decide)⟩
